import Mathlib

/-!
Verification of the nauttaja save manager (src/main.rs) against its
specification.  The program is shallowly embedded: the persisted gamedb
document, the managed storage directories, the backup slot and the live
(Noita) save directory form an explicit `World` state; every lifecycle
operation is a Lean function from that state (plus the oracle bits that
decide whether each fallible filesystem primitive succeeds) to a `Run`
containing the new state, the trace of attempted filesystem operations and
the success flag, mirroring main.rs line by line.  Directory contents are
opaque values (`DirContents`); the directory-copy primitive is modelled as
faithful value transfer, as the spec treats it as a primitive.
-/

namespace Nauttaja

/-- Opaque contents of a directory tree: relative file paths with their
bytes.  The copy primitive transfers this value; the core never inspects
it (spec section 2). -/
abbrev DirContents := List (String × String)

/-- struct Config (main.rs lines 23-26). -/
structure Config where
  noita_root_dir : String
deriving DecidableEq, Repr

/-- struct Save (main.rs lines 35-40): name is the user-chosen display key,
directory the opaque storage id, timestamp the creation time. -/
structure Save where
  name : String
  directory : String
  timestamp : String
deriving DecidableEq, Repr

/-- struct GameDB (main.rs lines 28-33). -/
structure GameDB where
  saves : List Save
  trash : List Save
  config : Config
deriving DecidableEq, Repr

/-- GameDB::default() used by update_gamedb when no file exists
(main.rs lines 216-220). -/
def defaultGameDB : GameDB :=
  { saves := [], trash := [], config := { noita_root_dir := "" } }

/-- State of the persisted gamedb.json file: absent, unparsable, or a
parsed document. -/
inductive DbFile where
  | missing
  | corrupt
  | doc (db : GameDB)
deriving DecidableEq, Repr

/-- Symbolic filesystem paths as the program constructs them
(main.rs lines 14-19, 438-452).  Using constructors rather than raw
strings keeps distinct construction patterns distinct. -/
inductive FsPath where
  | nauttajaRoot
  | gamedbFile
  | backupDir
  | saveDir (id : String)
  | saveSnapshot (id : String)
  | noitaRoot (root : String)
  | noitaSaveDir (root : String)
  | importSource (p : String)
deriving DecidableEq, Repr

/-- Filesystem operations the program attempts, in program order.  `rename`
is never emitted by this program; it is included so that the
write-then-rename discipline of the spec can be stated over traces. -/
inductive Op where
  | readFile (p : FsPath)
  | writeFile (p : FsPath)
  | rename (src dst : FsPath)
  | createDir (p : FsPath)
  | createDirAll (p : FsPath)
  | removeDirAll (p : FsPath)
  | copyDir (src dst : FsPath)
  | print (msg : String)
deriving DecidableEq, Repr

/-- The machine state the program manipulates: the gamedb document file,
the live save directory (noita_root\save00) contents, the backup slot
contents, and the managed storage directories keyed by storage id.
`none` means the directory does not exist. -/
structure World where
  gamedbFile : DbFile
  live : Option DirContents
  backup : Option DirContents
  storage : List (String × DirContents)
deriving DecidableEq, Repr

/-- Result of running an operation: final state, trace of attempted
filesystem operations, and whether the operation returned Ok. -/
structure Run where
  world : World
  trace : List Op
  ok : Bool
deriving DecidableEq, Repr

/-- Result of update_gamedb: additionally records the document the update
closure was applied to (`none` when loading failed before the closure ran),
mirroring the captured-variable pattern used by delete_save. -/
structure TxRun where
  world : World
  trace : List Op
  ok : Bool
  applied : Option GameDB
deriving DecidableEq, Repr

/-- load_gamedb (main.rs lines 454-465): read and parse the gamedb file;
errors when the file is missing or unparsable. -/
def load_gamedb (w : World) : Option GameDB :=
  match w.gamedbFile with
  | DbFile.doc db => some db
  | _ => none

/-- update_gamedb (main.rs lines 207-225): create the nauttaja directory,
load the current document (or default when the file does not exist), apply
the update closure, and persist the result with a single direct fs::write
to the gamedb path.  `writeOk` is the oracle for the write; a failed write
leaves the file in an unspecified partially-written state, modelled as
`DbFile.corrupt`.  The closures of this program only print, so an update
closure returns the new document and its printed messages. -/
def update_gamedb (f : GameDB → GameDB × List String) (writeOk : Bool) (w : World) : TxRun :=
  match w.gamedbFile with
  | DbFile.corrupt =>
      ⟨w, [Op.createDirAll FsPath.nauttajaRoot, Op.readFile FsPath.gamedbFile], false, none⟩
  | DbFile.missing =>
      let r := f defaultGameDB
      if writeOk then
        ⟨{ w with gamedbFile := DbFile.doc r.1 },
          Op.createDirAll FsPath.nauttajaRoot :: r.2.map Op.print
            ++ [Op.writeFile FsPath.gamedbFile],
          true, some defaultGameDB⟩
      else
        ⟨{ w with gamedbFile := DbFile.corrupt },
          Op.createDirAll FsPath.nauttajaRoot :: r.2.map Op.print
            ++ [Op.writeFile FsPath.gamedbFile],
          false, some defaultGameDB⟩
  | DbFile.doc db =>
      let r := f db
      if writeOk then
        ⟨{ w with gamedbFile := DbFile.doc r.1 },
          Op.createDirAll FsPath.nauttajaRoot :: Op.readFile FsPath.gamedbFile :: r.2.map Op.print
            ++ [Op.writeFile FsPath.gamedbFile],
          true, some db⟩
      else
        ⟨{ w with gamedbFile := DbFile.corrupt },
          Op.createDirAll FsPath.nauttajaRoot :: Op.readFile FsPath.gamedbFile :: r.2.map Op.print
            ++ [Op.writeFile FsPath.gamedbFile],
          false, some db⟩

/-- The update closure of remove_save (main.rs lines 263-272): move the
first save whose name matches from saves to the end of trash.  The Rust
position-then-remove on the first matching index is find?/eraseP. -/
def remove_step (save_name : String) (db : GameDB) : GameDB × List String :=
  match db.saves.find? (fun s => s.name == save_name) with
  | none => (db, ["Failed to find [" ++ save_name ++ "]"])
  | some s =>
      ({ db with saves := db.saves.eraseP (fun s => s.name == save_name),
                 trash := db.trash ++ [s] }, [])

/-- remove_save (main.rs lines 261-275). -/
def remove_save (save_name : String) (writeOk : Bool) (w : World) : Run :=
  let r := update_gamedb (remove_step save_name) writeOk w
  if r.ok then
    ⟨r.world,
      Op.print ("Removing save with name [" ++ save_name ++ "]") :: r.trace
        ++ [Op.print ("Save with name [" ++ save_name ++ "] removed")], true⟩
  else
    ⟨r.world, Op.print ("Removing save with name [" ++ save_name ++ "]") :: r.trace, false⟩

/-- The update closure of restore_save (main.rs lines 279-288): move the
first trash entry whose name matches back to the end of saves. -/
def restore_step (save_name : String) (db : GameDB) : GameDB × List String :=
  match db.trash.find? (fun s => s.name == save_name) with
  | none => (db, ["Failed to find [" ++ save_name ++ "]"])
  | some s =>
      ({ db with trash := db.trash.eraseP (fun s => s.name == save_name),
                 saves := db.saves ++ [s] }, [])

/-- restore_save (main.rs lines 277-291). -/
def restore_save (save_name : String) (writeOk : Bool) (w : World) : Run :=
  let r := update_gamedb (restore_step save_name) writeOk w
  if r.ok then
    ⟨r.world,
      Op.print ("Restoring save with name [" ++ save_name ++ "]") :: r.trace
        ++ [Op.print ("Save with name [" ++ save_name ++ "] restored")], true⟩
  else
    ⟨r.world, Op.print ("Restoring save with name [" ++ save_name ++ "]") :: r.trace, false⟩

/-- The update closure of delete_save (main.rs lines 231-247): remove the
first matching trash entry; when the name is only among the active saves,
print the trash-it-first rejection and change nothing. -/
def delete_step (save_name : String) (db : GameDB) : GameDB × List String :=
  match db.trash.find? (fun s => s.name == save_name) with
  | some _ =>
      ({ db with trash := db.trash.eraseP (fun s => s.name == save_name) }, [])
  | none =>
      match db.saves.find? (fun s => s.name == save_name) with
      | some _ =>
          (db, ["Found save [" ++ save_name ++ "], currently not in the trash",
                "To permanently delete this save, please trash it first"])
      | none => (db, ["Failed to find [" ++ save_name ++ "]"])

/-- The dir_to_delete captured variable of delete_save: the storage id of
the removed trash entry, set exactly when the closure removed one. -/
def dir_to_delete (save_name : String) (db : GameDB) : Option String :=
  (db.trash.find? (fun s => s.name == save_name)).map Save.directory

/-- delete_save (main.rs lines 227-259): transactionally remove the record
from the trash, and only afterwards (and only if the transaction succeeded)
remove the physical storage directory.  `removeOk` is the oracle for
fs::remove_dir_all on the storage directory. -/
def delete_save (save_name : String) (writeOk removeOk : Bool) (w : World) : Run :=
  let hd := Op.print ("Deleting save with name [" ++ save_name ++ "]")
  let r := update_gamedb (delete_step save_name) writeOk w
  if r.ok then
    match r.applied.bind (dir_to_delete save_name) with
    | none => ⟨r.world, hd :: r.trace, true⟩
    | some dir =>
        if removeOk then
          ⟨{ r.world with storage := r.world.storage.eraseP (fun e => e.1 == dir) },
            hd :: r.trace ++ [Op.removeDirAll (FsPath.saveDir dir),
              Op.print "Deleted save successfully"], true⟩
        else
          ⟨r.world, hd :: r.trace ++ [Op.removeDirAll (FsPath.saveDir dir)], false⟩
  else
    ⟨r.world, hd :: r.trace, false⟩

/-- save_dir_as_save (main.rs lines 313-349): load the document, reject the
name if it already exists in either collection (early Ok return with a
message and no filesystem action), otherwise create the fresh storage
directory, copy the source into it, and only then transact the record
insertion.  `freshId` and `ts` stand for the generated uuid and timestamp;
`src` is the contents of the source directory (`none` when it does not
exist, which makes the copy fail); `copyOk` is the oracle for the copy. -/
def save_dir_as_save (srcPath : FsPath) (src : Option DirContents)
    (save_name freshId ts : String) (copyOk writeOk : Bool) (w : World) : Run :=
  match load_gamedb w with
  | none => ⟨w, [Op.readFile FsPath.gamedbFile], false⟩
  | some db =>
      if db.saves.any (fun s => s.name == save_name) then
        ⟨w, [Op.readFile FsPath.gamedbFile,
             Op.print ("[" ++ save_name ++ "] already exists")], true⟩
      else if db.trash.any (fun s => s.name == save_name) then
        ⟨w, [Op.readFile FsPath.gamedbFile,
             Op.print ("[" ++ save_name ++ "] already exists, currently in the trash")], true⟩
      else
        let w1 := { w with storage := w.storage ++ [(freshId, ([] : DirContents))] }
        let tr1 := [Op.readFile FsPath.gamedbFile, Op.createDirAll (FsPath.saveDir freshId),
                    Op.copyDir srcPath (FsPath.saveDir freshId)]
        match src, copyOk with
        | some contents, true =>
            let w2 := { w with storage := w.storage ++ [(freshId, contents)] }
            let r := update_gamedb
              (fun db => ({ db with
                saves := db.saves ++ [{ name := save_name, directory := freshId,
                                        timestamp := ts }] }, ([] : List String)))
              writeOk w2
            ⟨r.world, tr1 ++ r.trace, r.ok⟩
        | _, _ => ⟨w1, tr1, false⟩

/-- save_game (main.rs lines 306-311): capture the live save00 directory
as a new save. -/
def save_game (cfg : Config) (save_name freshId ts : String)
    (copyOk writeOk : Bool) (w : World) : Run :=
  let hd := Op.print ("Saving game with name [" ++ save_name ++ "]")
  let r := save_dir_as_save (FsPath.noitaSaveDir cfg.noita_root_dir) w.live
    save_name freshId ts copyOk writeOk w
  if r.ok then
    ⟨r.world, hd :: r.trace
      ++ [Op.print ("Successfully saved game with name [" ++ save_name ++ "]")], true⟩
  else
    ⟨r.world, hd :: r.trace, false⟩

/-- import_save (main.rs lines 293-304): capture an arbitrary directory as
a new save (the success message interpolates the directory path, exactly
as the source does). -/
def import_save (directory : String) (src : Option DirContents)
    (save_name freshId ts : String) (copyOk writeOk : Bool) (w : World) : Run :=
  let hd := Op.print ("Importing directory [" ++ directory ++ "] as a new save, named ["
    ++ save_name ++ "]")
  let r := save_dir_as_save (FsPath.importSource directory) src
    save_name freshId ts copyOk writeOk w
  if r.ok then
    ⟨r.world, hd :: r.trace
      ++ [Op.print ("Successfully imported directory as a save with name ["
          ++ directory ++ "]")], true⟩
  else
    ⟨r.world, hd :: r.trace, false⟩

/-- Oracle for the five fallible filesystem steps of load_save, in the
order the program attempts them. -/
structure LoadOracle where
  removeBackupOk : Bool
  createBackupOk : Bool
  copyBackupOk : Bool
  removeLiveOk : Bool
  copyLiveOk : Bool
deriving DecidableEq, Repr

/-- The all-success oracle. -/
def allOk : LoadOracle := ⟨true, true, true, true, true⟩

/-- load_save (main.rs lines 351-390), step by step: load the document and
find the save (either miss is an Ok no-op with a message); check its
storage directory exists; delete the previous backup slot if present;
create the backup slot and copy the current live state into it; delete the
live state directory; copy the stored snapshot back into the noita root.
A failed copy into the freshly created backup slot leaves it created but
not guaranteed complete (modelled as empty); a failed final copy leaves
the live directory absent. -/
def load_save (cfg : Config) (save_name : String) (o : LoadOracle) (w : World) : Run :=
  let hd := Op.print ("Loading save with name [" ++ save_name ++ "]")
  match load_gamedb w with
  | none => ⟨w, [hd, Op.readFile FsPath.gamedbFile], false⟩
  | some db =>
      let tr1 := [hd, Op.readFile FsPath.gamedbFile]
      match db.saves.find? (fun s => s.name == save_name) with
      | none =>
          ⟨w, tr1 ++ [Op.print ("Failed to find save with name [" ++ save_name ++ "]")], true⟩
      | some save =>
          match w.storage.lookup save.directory with
          | none =>
              ⟨w, tr1 ++ [Op.print ("Failed to find save with name [" ++ save_name ++ "]")],
                true⟩
          | some snapshot =>
              let live := FsPath.noitaSaveDir cfg.noita_root_dir
              let tr2 := tr1 ++ (if w.backup.isSome then [Op.removeDirAll FsPath.backupDir] else [])
              if w.backup.isSome && !o.removeBackupOk then
                ⟨w, tr2, false⟩
              else
                let w2 := { w with backup := none }
                let tr3 := tr2 ++ [Op.createDir FsPath.backupDir]
                if !o.createBackupOk then
                  ⟨w2, tr3, false⟩
                else
                  let w3 := { w2 with backup := some ([] : DirContents) }
                  let tr4 := tr3 ++ [Op.print "Creating emergency backup...",
                    Op.copyDir live FsPath.backupDir]
                  match w.live, o.copyBackupOk with
                  | none, _ => ⟨w3, tr4, false⟩
                  | some _, false => ⟨w3, tr4, false⟩
                  | some liveContents, true =>
                      let w4 := { w3 with backup := some liveContents }
                      let tr5 := tr4 ++ [Op.print ("Loading [" ++ save_name ++ "]..."),
                        Op.removeDirAll live]
                      if !o.removeLiveOk then
                        ⟨w4, tr5, false⟩
                      else
                        let w5 := { w4 with live := none }
                        let tr6 := tr5 ++ [Op.copyDir (FsPath.saveSnapshot save.directory)
                          (FsPath.noitaRoot cfg.noita_root_dir)]
                        if !o.copyLiveOk then
                          ⟨w5, tr6, false⟩
                        else
                          ⟨{ w5 with live := some snapshot },
                            tr6 ++ [Op.print ("Save [" ++ save_name ++ "] successfully loaded!")],
                            true⟩

/-- The listing order of list_saves (main.rs line 400): sort by timestamp
descending. -/
def sortedByTimestampDesc (l : List Save) : List Save :=
  l.mergeSort (fun a b => b.timestamp ≤ a.timestamp)

/-- list_saves (main.rs lines 392-407): read-only; returns the lines it
prints. -/
def list_saves (w : World) : List Op × Bool :=
  match load_gamedb w with
  | none => ([Op.readFile FsPath.gamedbFile], false)
  | some db =>
      if db.saves.isEmpty then
        ([Op.readFile FsPath.gamedbFile, Op.print "No saves found"], true)
      else
        ([Op.readFile FsPath.gamedbFile]
          ++ (sortedByTimestampDesc db.saves).map
              (fun s => Op.print (s.timestamp ++ " - " ++ s.name)), true)

/-- The lifecycle commands of the program, each carrying the external
inputs of its run: the generated uuid and timestamp, the contents of the
directories it reads, and the oracle bits for its fallible filesystem
primitives. -/
inductive Cmd where
  | create (cfg : Config) (n freshId ts : String) (copyOk writeOk : Bool)
  | imp (path : String) (src : Option DirContents) (n freshId ts : String) (copyOk writeOk : Bool)
  | remove (n : String) (writeOk : Bool)
  | restore (n : String) (writeOk : Bool)
  | delete (n : String) (writeOk removeOk : Bool)
  | load (cfg : Config) (n : String) (o : LoadOracle)

/-- Run one command, keeping its resulting state. -/
def stepCmd : Cmd → World → World
  | Cmd.create cfg n freshId ts copyOk writeOk, w =>
      (save_game cfg n freshId ts copyOk writeOk w).world
  | Cmd.imp path src n freshId ts copyOk writeOk, w =>
      (import_save path src n freshId ts copyOk writeOk w).world
  | Cmd.remove n writeOk, w => (remove_save n writeOk w).world
  | Cmd.restore n writeOk, w => (restore_save n writeOk w).world
  | Cmd.delete n writeOk removeOk, w => (delete_save n writeOk removeOk w).world
  | Cmd.load cfg n o, w => (load_save cfg n o w).world

/-- Run a sequence of commands. -/
def runCmds : List Cmd → World → World
  | [], w => w
  | c :: cs, w => runCmds cs (stepCmd c w)

/-- The empty store: a persisted document with no saves, no trash. -/
def initWorld : World :=
  { gamedbFile := DbFile.doc defaultGameDB, live := none, backup := none, storage := [] }

/-- The uniqueness invariant: whenever the store document parses, no two
records across saves and trash share a name. -/
def storeNamesUnique (w : World) : Prop :=
  match w.gamedbFile with
  | DbFile.doc db => ((db.saves ++ db.trash).map Save.name).Nodup
  | _ => True

/-- The document update_gamedb applies its closure to: the parsed file, the
default document when the file is missing, nothing when it is corrupt. -/
def txInput (w : World) : Option GameDB :=
  match w.gamedbFile with
  | DbFile.doc db => some db
  | DbFile.missing => some defaultGameDB
  | DbFile.corrupt => none

/-- Modelled from the spec: the write-then-rename discipline.  A trace
follows it when the document path is never written directly, and instead
some temporary path is written and then renamed onto the document path. -/
def followsWriteThenRename (tr : List Op) : Prop :=
  Op.writeFile FsPath.gamedbFile ∉ tr ∧
    ∃ tmp, tmp ≠ FsPath.gamedbFile ∧ Op.writeFile tmp ∈ tr ∧
      Op.rename tmp FsPath.gamedbFile ∈ tr

/-- Concrete material for witnesses and counterexamples. -/
def sampleSaveA : Save :=
  { name := "a", directory := "id1", timestamp := "2021-01-01 10:00:00" }

def sampleSaveB : Save :=
  { name := "b", directory := "id2", timestamp := "2021-01-02 10:00:00" }

def sampleConfig : Config := { noita_root_dir := "root" }

def sampleDB : GameDB := { saves := [sampleSaveA], trash := [sampleSaveB], config := sampleConfig }

def sampleWorld : World :=
  { gamedbFile := DbFile.doc sampleDB,
    live := some [("world.dat", "v2")],
    backup := some [("world.dat", "v0")],
    storage := [("id1", [("world.dat", "v1")]), ("id2", [("world.dat", "w1")])] }

/-! Helper lemmas. -/

theorem load_gamedb_eq_some {w : World} {db : GameDB} :
    load_gamedb w = some db ↔ w.gamedbFile = DbFile.doc db := by
  unfold load_gamedb
  cases w.gamedbFile <;> simp

theorem update_gamedb_doc (f : GameDB → GameDB × List String) (writeOk : Bool)
    (w : World) (db : GameDB) (h : w.gamedbFile = DbFile.doc db) :
    update_gamedb f writeOk w =
      ⟨{ w with gamedbFile := if writeOk then DbFile.doc (f db).1 else DbFile.corrupt },
        Op.createDirAll FsPath.nauttajaRoot :: Op.readFile FsPath.gamedbFile ::
          (f db).2.map Op.print ++ [Op.writeFile FsPath.gamedbFile],
        writeOk, some db⟩ := by
  obtain ⟨gf, lv, bk, st⟩ := w
  obtain rfl : gf = DbFile.doc db := h
  cases writeOk <;> simp [update_gamedb]

theorem find_eraseP_perm {α : Type} (p : α → Bool) :
    ∀ (l : List α) (a : α), l.find? p = some a → l.Perm (a :: l.eraseP p) := by
  intro l
  induction l with
  | nil => intro a h; simp at h
  | cons x xs ih =>
      intro a h
      by_cases hx : p x = true
      · rw [List.find?_cons_of_pos _ hx] at h
        injection h with h
        subst h
        rw [List.eraseP_cons_of_pos hx]
      · rw [List.find?_cons_of_neg _ hx] at h
        rw [List.eraseP_cons_of_neg hx]
        exact ((ih a h).cons x).trans (List.Perm.swap a x _)

theorem nodup_names_move {l t : List Save} {s : Save} (p : Save → Bool)
    (hf : l.find? p = some s)
    (h : ((l ++ t).map Save.name).Nodup) :
    ((l.eraseP p ++ (t ++ [s])).map Save.name).Nodup := by
  have hp : l.Perm (s :: l.eraseP p) := find_eraseP_perm p l s hf
  have h3 : ((s :: l.eraseP p) ++ t).Perm (l ++ t) := List.Perm.append_right t hp.symm
  have hperm : (l.eraseP p ++ (t ++ [s])).Perm (l ++ t) := by
    rw [(List.append_assoc (l.eraseP p) t [s]).symm]
    exact (List.perm_append_singleton s (l.eraseP p ++ t)).trans h3
  exact ((hperm.map Save.name).nodup_iff).mpr h

theorem nodup_names_comm {l t : List Save} (h : ((l ++ t).map Save.name).Nodup) :
    ((t ++ l).map Save.name).Nodup :=
  ((List.perm_append_comm.map Save.name).nodup_iff).mp h

theorem nodup_names_erase {l t : List Save} {s : Save} (p : Save → Bool)
    (hf : t.find? p = some s)
    (h : ((l ++ t).map Save.name).Nodup) :
    ((l ++ t.eraseP p).map Save.name).Nodup := by
  have hp : t.Perm (s :: t.eraseP p) := find_eraseP_perm p t s hf
  have h2 : ((l ++ (s :: t.eraseP p)).map Save.name).Nodup :=
    (((List.Perm.append_left l hp).map Save.name).nodup_iff).mp h
  have hsub : List.Sublist ((l ++ t.eraseP p).map Save.name)
      ((l ++ s :: t.eraseP p).map Save.name) :=
    List.Sublist.map Save.name (List.Sublist.append_left (List.sublist_cons_self s _) l)
  exact h2.sublist hsub

theorem nodup_names_insert {l t : List Save} {s : Save}
    (hl : l.any (fun x => x.name == s.name) = false)
    (ht : t.any (fun x => x.name == s.name) = false)
    (h : ((l ++ t).map Save.name).Nodup) :
    (((l ++ [s]) ++ t).map Save.name).Nodup := by
  have hperm : ((l ++ [s]) ++ t).Perm (s :: (l ++ t)) := by
    rw [List.append_assoc]
    exact List.perm_middle
  apply ((hperm.map Save.name).nodup_iff).mpr
  rw [List.map_cons]
  refine List.nodup_cons.mpr ⟨?_, h⟩
  intro hmem
  rw [List.mem_map] at hmem
  obtain ⟨x, hx, hxe⟩ := hmem
  rw [List.mem_append] at hx
  cases hx with
  | inl hx =>
      have hne := List.any_eq_false.mp hl x hx
      simp only [beq_iff_eq] at hne
      exact hne hxe
  | inr hx =>
      have hne := List.any_eq_false.mp ht x hx
      simp only [beq_iff_eq] at hne
      exact hne hxe

theorem remove_step_nodup (n : String) (db : GameDB)
    (h : ((db.saves ++ db.trash).map Save.name).Nodup) :
    (((remove_step n db).1.saves ++ (remove_step n db).1.trash).map Save.name).Nodup := by
  unfold remove_step
  cases hf : db.saves.find? (fun s => s.name == n) with
  | none => simpa using h
  | some s => simpa using nodup_names_move _ hf h

theorem restore_step_nodup (n : String) (db : GameDB)
    (h : ((db.saves ++ db.trash).map Save.name).Nodup) :
    (((restore_step n db).1.saves ++ (restore_step n db).1.trash).map Save.name).Nodup := by
  unfold restore_step
  cases hf : db.trash.find? (fun s => s.name == n) with
  | none => simpa using h
  | some s =>
      have := nodup_names_comm (nodup_names_move _ hf (nodup_names_comm h))
      simpa using this

theorem delete_step_nodup (n : String) (db : GameDB)
    (h : ((db.saves ++ db.trash).map Save.name).Nodup) :
    (((delete_step n db).1.saves ++ (delete_step n db).1.trash).map Save.name).Nodup := by
  unfold delete_step
  cases hf : db.trash.find? (fun s => s.name == n) with
  | some s => simpa using nodup_names_erase _ hf h
  | none => cases db.saves.find? (fun s => s.name == n) <;> simpa using h

theorem storeNamesUnique_of_eq_gamedb {w1 w2 : World} (h : w1.gamedbFile = w2.gamedbFile)
    (hw : storeNamesUnique w2) : storeNamesUnique w1 := by
  unfold storeNamesUnique at *
  rw [h]
  exact hw

theorem update_gamedb_preserves (f : GameDB → GameDB × List String) (writeOk : Bool)
    (w : World) (hw : storeNamesUnique w)
    (hf : ∀ db, ((db.saves ++ db.trash).map Save.name).Nodup →
      (((f db).1.saves ++ (f db).1.trash).map Save.name).Nodup) :
    storeNamesUnique (update_gamedb f writeOk w).world := by
  obtain ⟨gf, lv, bk, st⟩ := w
  cases gf with
  | corrupt => exact hw
  | missing =>
      cases writeOk with
      | true =>
          simp only [update_gamedb, storeNamesUnique]
          exact hf defaultGameDB (by simp [defaultGameDB])
      | false => simp [update_gamedb, storeNamesUnique]
  | doc db =>
      cases writeOk with
      | true =>
          simp only [storeNamesUnique] at hw
          simp only [update_gamedb, storeNamesUnique]
          exact hf db hw
      | false => simp [update_gamedb, storeNamesUnique]

theorem remove_save_world (n : String) (writeOk : Bool) (w : World) :
    (remove_save n writeOk w).world = (update_gamedb (remove_step n) writeOk w).world := by
  simp only [remove_save]
  split <;> rfl

theorem restore_save_world (n : String) (writeOk : Bool) (w : World) :
    (restore_save n writeOk w).world = (update_gamedb (restore_step n) writeOk w).world := by
  simp only [restore_save]
  split <;> rfl

theorem delete_save_gamedb (n : String) (writeOk removeOk : Bool) (w : World) :
    (delete_save n writeOk removeOk w).world.gamedbFile =
      (update_gamedb (delete_step n) writeOk w).world.gamedbFile := by
  simp only [delete_save]
  split
  · split
    · rfl
    · split <;> rfl
  · rfl

theorem save_dir_as_save_dup_saves (srcPath : FsPath) (src : Option DirContents)
    (n freshId ts : String) (copyOk writeOk : Bool) (w : World) (db : GameDB)
    (hfile : w.gamedbFile = DbFile.doc db)
    (hs : db.saves.any (fun s => s.name == n) = true) :
    save_dir_as_save srcPath src n freshId ts copyOk writeOk w =
      ⟨w, [Op.readFile FsPath.gamedbFile,
           Op.print ("[" ++ n ++ "] already exists")], true⟩ := by
  simp [save_dir_as_save, load_gamedb, hfile, hs]

theorem save_dir_as_save_dup_trash (srcPath : FsPath) (src : Option DirContents)
    (n freshId ts : String) (copyOk writeOk : Bool) (w : World) (db : GameDB)
    (hfile : w.gamedbFile = DbFile.doc db)
    (hs : db.saves.any (fun s => s.name == n) = false)
    (ht : db.trash.any (fun s => s.name == n) = true) :
    save_dir_as_save srcPath src n freshId ts copyOk writeOk w =
      ⟨w, [Op.readFile FsPath.gamedbFile,
           Op.print ("[" ++ n ++ "] already exists, currently in the trash")], true⟩ := by
  simp [save_dir_as_save, load_gamedb, hfile, hs, ht]

theorem save_dir_as_save_copy_fail (srcPath : FsPath) (src : Option DirContents)
    (n freshId ts : String) (copyOk writeOk : Bool) (w : World) (db : GameDB)
    (hfile : w.gamedbFile = DbFile.doc db)
    (hs : db.saves.any (fun s => s.name == n) = false)
    (ht : db.trash.any (fun s => s.name == n) = false)
    (hfail : src = none ∨ copyOk = false) :
    save_dir_as_save srcPath src n freshId ts copyOk writeOk w =
      ⟨{ w with storage := w.storage ++ [(freshId, ([] : DirContents))] },
        [Op.readFile FsPath.gamedbFile, Op.createDirAll (FsPath.saveDir freshId),
         Op.copyDir srcPath (FsPath.saveDir freshId)], false⟩ := by
  cases hfail with
  | inl h =>
      subst h
      simp [save_dir_as_save, load_gamedb, hfile, hs, ht]
  | inr h =>
      subst h
      cases src with
      | none => simp [save_dir_as_save, load_gamedb, hfile, hs, ht]
      | some contents => simp [save_dir_as_save, load_gamedb, hfile, hs, ht]

theorem save_dir_as_save_success (srcPath : FsPath) (contents : DirContents)
    (n freshId ts : String) (writeOk : Bool) (w : World) (db : GameDB)
    (hfile : w.gamedbFile = DbFile.doc db)
    (hs : db.saves.any (fun s => s.name == n) = false)
    (ht : db.trash.any (fun s => s.name == n) = false) :
    save_dir_as_save srcPath (some contents) n freshId ts true writeOk w =
      ⟨{ w with storage := w.storage ++ [(freshId, contents)],
                gamedbFile := if writeOk then
                    DbFile.doc { db with saves := db.saves ++
                      [{ name := n, directory := freshId, timestamp := ts }] }
                  else DbFile.corrupt },
        [Op.readFile FsPath.gamedbFile, Op.createDirAll (FsPath.saveDir freshId),
         Op.copyDir srcPath (FsPath.saveDir freshId), Op.createDirAll FsPath.nauttajaRoot,
         Op.readFile FsPath.gamedbFile, Op.writeFile FsPath.gamedbFile], writeOk⟩ := by
  obtain ⟨gf, lv, bk, st⟩ := w
  obtain rfl : gf = DbFile.doc db := hfile
  cases writeOk <;> simp [save_dir_as_save, load_gamedb, update_gamedb, hs, ht]

theorem save_dir_as_save_preserves (srcPath : FsPath) (src : Option DirContents)
    (n freshId ts : String) (copyOk writeOk : Bool) (w : World) (hw : storeNamesUnique w) :
    storeNamesUnique (save_dir_as_save srcPath src n freshId ts copyOk writeOk w).world := by
  cases hgf : w.gamedbFile with
  | missing =>
      have : load_gamedb w = none := by unfold load_gamedb; rw [hgf]
      unfold save_dir_as_save
      rw [this]
      exact hw
  | corrupt =>
      have : load_gamedb w = none := by unfold load_gamedb; rw [hgf]
      unfold save_dir_as_save
      rw [this]
      exact hw
  | doc db =>
      have hnodup : ((db.saves ++ db.trash).map Save.name).Nodup := by
        have h0 := hw
        unfold storeNamesUnique at h0
        rw [hgf] at h0
        exact h0
      by_cases hs : db.saves.any (fun s => s.name == n) = true
      · rw [save_dir_as_save_dup_saves srcPath src n freshId ts copyOk writeOk w db hgf hs]
        exact hw
      · have hs2 : db.saves.any (fun s => s.name == n) = false := by
          simpa using hs
        by_cases ht : db.trash.any (fun s => s.name == n) = true
        · rw [save_dir_as_save_dup_trash srcPath src n freshId ts copyOk writeOk w db hgf hs2 ht]
          exact hw
        · have ht2 : db.trash.any (fun s => s.name == n) = false := by
            simpa using ht
          rcases h : src with _ | contents
          · rw [save_dir_as_save_copy_fail srcPath none n freshId ts copyOk writeOk w db hgf
              hs2 ht2 (Or.inl rfl)]
            exact storeNamesUnique_of_eq_gamedb rfl hw
          · cases copyOk with
            | false =>
                rw [save_dir_as_save_copy_fail srcPath (some contents) n freshId ts false
                  writeOk w db hgf hs2 ht2 (Or.inr rfl)]
                exact storeNamesUnique_of_eq_gamedb rfl hw
            | true =>
                rw [save_dir_as_save_success srcPath contents n freshId ts writeOk w db hgf
                  hs2 ht2]
                cases writeOk with
                | false => simp [storeNamesUnique]
                | true =>
                    simp only [storeNamesUnique, if_pos rfl]
                    simpa using nodup_names_insert
                      (s := { name := n, directory := freshId, timestamp := ts })
                      (by simpa using hs2) (by simpa using ht2) hnodup

theorem load_save_gamedb (cfg : Config) (n : String) (o : LoadOracle) (w : World) :
    (load_save cfg n o w).world.gamedbFile = w.gamedbFile := by
  simp only [load_save]
  repeat' split <;> try rfl

theorem save_game_world (cfg : Config) (n freshId ts : String) (copyOk writeOk : Bool)
    (w : World) :
    (save_game cfg n freshId ts copyOk writeOk w).world =
      (save_dir_as_save (FsPath.noitaSaveDir cfg.noita_root_dir) w.live n freshId ts
        copyOk writeOk w).world := by
  simp only [save_game]
  split <;> rfl

theorem import_save_world (path : String) (src : Option DirContents)
    (n freshId ts : String) (copyOk writeOk : Bool) (w : World) :
    (import_save path src n freshId ts copyOk writeOk w).world =
      (save_dir_as_save (FsPath.importSource path) src n freshId ts copyOk writeOk w).world := by
  simp only [import_save]
  split <;> rfl

theorem stepCmd_preserves (c : Cmd) (w : World) (hw : storeNamesUnique w) :
    storeNamesUnique (stepCmd c w) := by
  cases c with
  | create cfg n freshId ts copyOk writeOk =>
      have h := save_game_world cfg n freshId ts copyOk writeOk w
      simp only [stepCmd, h]
      exact save_dir_as_save_preserves _ _ _ _ _ _ _ _ hw
  | imp path src n freshId ts copyOk writeOk =>
      have h := import_save_world path src n freshId ts copyOk writeOk w
      simp only [stepCmd, h]
      exact save_dir_as_save_preserves _ _ _ _ _ _ _ _ hw
  | remove n writeOk =>
      have h := remove_save_world n writeOk w
      simp only [stepCmd, h]
      exact update_gamedb_preserves _ _ _ hw (remove_step_nodup n)
  | restore n writeOk =>
      have h := restore_save_world n writeOk w
      simp only [stepCmd, h]
      exact update_gamedb_preserves _ _ _ hw (restore_step_nodup n)
  | delete n writeOk removeOk =>
      simp only [stepCmd]
      exact storeNamesUnique_of_eq_gamedb (delete_save_gamedb n writeOk removeOk w)
        (update_gamedb_preserves _ _ _ hw (delete_step_nodup n))
  | load cfg n o =>
      simp only [stepCmd]
      exact storeNamesUnique_of_eq_gamedb (load_save_gamedb cfg n o w) hw

theorem runCmds_preserves (cmds : List Cmd) :
    ∀ w : World, storeNamesUnique w → storeNamesUnique (runCmds cmds w) := by
  induction cmds with
  | nil => intro w hw; exact hw
  | cons c cs ih => intro w hw; exact ih _ (stepCmd_preserves c w hw)

/-- C3: for every sequence of lifecycle operations (create, import, remove,
restore, delete, and also load) starting from the empty store, whatever the
generated ids, timestamps, directory contents and filesystem-failure
pattern, no two records across the union of the active-save list and the
trashed-save list ever share a name: whenever the persisted document
parses, the names in saves and trash together are pairwise distinct. -/
theorem lifecycle_names_unique (cmds : List Cmd) :
    storeNamesUnique (runCmds cmds initWorld) :=
  runCmds_preserves cmds initWorld
    (by simp [storeNamesUnique, initWorld, defaultGameDB])

/-- C2 counterexample: at a concrete state and update closure, the
transactional update does not follow the write-then-rename discipline the
claim describes: its trace writes the document path directly (and contains
no rename at all). -/
theorem update_gamedb_no_write_then_rename :
    ¬ followsWriteThenRename
      (update_gamedb (fun db => (db, [])) true sampleWorld).trace := by
  intro h
  exact h.1 (by decide)

/-- C2 (amended): update_gamedb persists the updated document by writing it
directly, in place, to the document path: no rename ever appears in its
trace, on a successful run the stored document becomes exactly the updated
value via a direct write of the document path, and when the current
document cannot be loaded nothing at all is written. -/
theorem update_gamedb_direct_write (f : GameDB → GameDB × List String) (writeOk : Bool)
    (w : World) :
    (∀ a b, Op.rename a b ∉ (update_gamedb f writeOk w).trace) ∧
    ((update_gamedb f writeOk w).ok = true →
      ∃ db0, txInput w = some db0 ∧
        (update_gamedb f writeOk w).world.gamedbFile = DbFile.doc (f db0).1 ∧
        Op.writeFile FsPath.gamedbFile ∈ (update_gamedb f writeOk w).trace) ∧
    (txInput w = none →
      (update_gamedb f writeOk w).world = w ∧
      Op.writeFile FsPath.gamedbFile ∉ (update_gamedb f writeOk w).trace) := by
  obtain ⟨gf, lv, bk, st⟩ := w
  cases gf <;> cases writeOk <;>
    simp [update_gamedb, txInput]

/-- C2 amended witness: the properties at a concrete successful run. -/
theorem update_gamedb_direct_write_witness :
    ∃ db0, txInput sampleWorld = some db0 ∧
      (update_gamedb (fun db => (db, [])) true sampleWorld).world.gamedbFile =
        DbFile.doc ((fun db => (db, ([] : List String))) db0).1 ∧
      Op.writeFile FsPath.gamedbFile ∈
        (update_gamedb (fun db => (db, [])) true sampleWorld).trace :=
  (update_gamedb_direct_write (fun db => (db, [])) true sampleWorld).2.1 (by decide)

/-- C10: calling create/import (save_dir_as_save) with a name already
present in either collection returns success with zero side effects: the
run is exactly the document read followed by the duplicate message, the
world (store document, storage, live state, backup) is unchanged, and in
particular no storage directory is created, nothing is copied and the
document is not rewritten. -/
theorem duplicate_name_no_side_effects (srcPath : FsPath) (src : Option DirContents)
    (n freshId ts : String) (copyOk writeOk : Bool) (w : World) (db : GameDB)
    (hfile : w.gamedbFile = DbFile.doc db) :
    (db.saves.any (fun s => s.name == n) = true →
      save_dir_as_save srcPath src n freshId ts copyOk writeOk w =
        ⟨w, [Op.readFile FsPath.gamedbFile,
             Op.print ("[" ++ n ++ "] already exists")], true⟩) ∧
    (db.saves.any (fun s => s.name == n) = false →
      db.trash.any (fun s => s.name == n) = true →
      save_dir_as_save srcPath src n freshId ts copyOk writeOk w =
        ⟨w, [Op.readFile FsPath.gamedbFile,
             Op.print ("[" ++ n ++ "] already exists, currently in the trash")], true⟩) :=
  ⟨fun hs => save_dir_as_save_dup_saves srcPath src n freshId ts copyOk writeOk w db hfile hs,
   fun hs ht =>
     save_dir_as_save_dup_trash srcPath src n freshId ts copyOk writeOk w db hfile hs ht⟩

/-- C10 witness: a duplicate create at a concrete state is a pure no-op. -/
theorem duplicate_name_no_side_effects_witness :
    save_dir_as_save (FsPath.noitaSaveDir "root") (some [("world.dat", "v9")]) "a" "id9"
        "2021-01-03 10:00:00" true true sampleWorld =
      ⟨sampleWorld, [Op.readFile FsPath.gamedbFile,
        Op.print ("[" ++ "a" ++ "] already exists")], true⟩ :=
  (duplicate_name_no_side_effects (FsPath.noitaSaveDir "root") (some [("world.dat", "v9")])
    "a" "id9" "2021-01-03 10:00:00" true true sampleWorld sampleDB rfl).1 (by decide)

/-- C6: deleting a name that is in the active list but not in the trash is
rejected with the specific trash-it-first message, returns success, and
produces no mutation: the final world equals the initial one (the
transactional rewrite stores the unchanged document) and no removeDirAll
is attempted. -/
theorem delete_active_rejected (n : String) (removeOk : Bool) (w : World) (db : GameDB)
    (s : Save) (hfile : w.gamedbFile = DbFile.doc db)
    (ht : db.trash.find? (fun x => x.name == n) = none)
    (hs : db.saves.find? (fun x => x.name == n) = some s) :
    delete_save n true removeOk w =
      ⟨w, [Op.print ("Deleting save with name [" ++ n ++ "]"),
           Op.createDirAll FsPath.nauttajaRoot, Op.readFile FsPath.gamedbFile,
           Op.print ("Found save [" ++ n ++ "], currently not in the trash"),
           Op.print "To permanently delete this save, please trash it first",
           Op.writeFile FsPath.gamedbFile], true⟩ := by
  obtain ⟨gf, lv, bk, st⟩ := w
  obtain rfl : gf = DbFile.doc db := hfile
  simp [delete_save, update_gamedb, delete_step, dir_to_delete, ht, hs]

/-- C6 witness: the rejection at a concrete state. -/
theorem delete_active_rejected_witness :
    delete_save "a" true true sampleWorld =
      ⟨sampleWorld, [Op.print ("Deleting save with name [" ++ "a" ++ "]"),
           Op.createDirAll FsPath.nauttajaRoot, Op.readFile FsPath.gamedbFile,
           Op.print ("Found save [" ++ "a" ++ "], currently not in the trash"),
           Op.print "To permanently delete this save, please trash it first",
           Op.writeFile FsPath.gamedbFile], true⟩ :=
  delete_active_rejected "a" true sampleWorld sampleDB sampleSaveA rfl (by decide) (by decide)

/-- C9: when the name is absent from the expected collection, remove,
restore and load return success with only a printed message: the final
world — store document value, live state, backup slot and storage — equals
the initial one. -/
theorem not_found_noop (cfg : Config) (n : String) (o : LoadOracle) (w : World) (db : GameDB)
    (hfile : w.gamedbFile = DbFile.doc db) :
    (db.saves.find? (fun x => x.name == n) = none →
      remove_save n true w =
        ⟨w, [Op.print ("Removing save with name [" ++ n ++ "]"),
             Op.createDirAll FsPath.nauttajaRoot, Op.readFile FsPath.gamedbFile,
             Op.print ("Failed to find [" ++ n ++ "]"), Op.writeFile FsPath.gamedbFile,
             Op.print ("Save with name [" ++ n ++ "] removed")], true⟩) ∧
    (db.trash.find? (fun x => x.name == n) = none →
      restore_save n true w =
        ⟨w, [Op.print ("Restoring save with name [" ++ n ++ "]"),
             Op.createDirAll FsPath.nauttajaRoot, Op.readFile FsPath.gamedbFile,
             Op.print ("Failed to find [" ++ n ++ "]"), Op.writeFile FsPath.gamedbFile,
             Op.print ("Save with name [" ++ n ++ "] restored")], true⟩) ∧
    (db.saves.find? (fun x => x.name == n) = none →
      load_save cfg n o w =
        ⟨w, [Op.print ("Loading save with name [" ++ n ++ "]"),
             Op.readFile FsPath.gamedbFile,
             Op.print ("Failed to find save with name [" ++ n ++ "]")], true⟩) := by
  obtain ⟨gf, lv, bk, st⟩ := w
  obtain rfl : gf = DbFile.doc db := hfile
  refine ⟨fun hf => ?_, fun hf => ?_, fun hf => ?_⟩
  · simp [remove_save, update_gamedb, remove_step, hf]
  · simp [restore_save, update_gamedb, restore_step, hf]
  · simp [load_save, load_gamedb, hf]

/-- C9 witness: the three no-ops at a concrete state and an absent name. -/
theorem not_found_noop_witness :
    (remove_save "c" true sampleWorld).world = sampleWorld ∧
    (restore_save "c" true sampleWorld).world = sampleWorld ∧
    (load_save sampleConfig "c" allOk sampleWorld).world = sampleWorld :=
  ⟨congrArg Run.world
    ((not_found_noop sampleConfig "c" allOk sampleWorld sampleDB rfl).1 (by decide)),
   congrArg Run.world
    ((not_found_noop sampleConfig "c" allOk sampleWorld sampleDB rfl).2.1 (by decide)),
   congrArg Run.world
    ((not_found_noop sampleConfig "c" allOk sampleWorld sampleDB rfl).2.2 (by decide))⟩

/-- C5: for a name found in the trash, delete_save removes the record and
persists that removal before deleting the physical storage directory: on
the all-success path the document write strictly precedes the removeDirAll
in the trace; if the document write fails, no removeDirAll is attempted at
all; and if the write succeeds but the physical removal fails, the
persisted document already lacks the record while the storage directory
remains — an orphaned directory, never a record pointing at nothing. -/
theorem delete_persist_before_remove (n : String) (w : World) (db : GameDB) (s : Save)
    (hfile : w.gamedbFile = DbFile.doc db)
    (ht : db.trash.find? (fun x => x.name == n) = some s) :
    (delete_save n true true w =
      ⟨{ w with
          gamedbFile := DbFile.doc { db with trash := db.trash.eraseP (fun x => x.name == n) },
          storage := w.storage.eraseP (fun e => e.1 == s.directory) },
        [Op.print ("Deleting save with name [" ++ n ++ "]"),
         Op.createDirAll FsPath.nauttajaRoot, Op.readFile FsPath.gamedbFile,
         Op.writeFile FsPath.gamedbFile,
         Op.removeDirAll (FsPath.saveDir s.directory),
         Op.print "Deleted save successfully"], true⟩) ∧
    (∀ removeOk p, Op.removeDirAll p ∉ (delete_save n false removeOk w).trace) ∧
    (delete_save n true false w =
      ⟨{ w with
          gamedbFile := DbFile.doc { db with trash := db.trash.eraseP (fun x => x.name == n) } },
        [Op.print ("Deleting save with name [" ++ n ++ "]"),
         Op.createDirAll FsPath.nauttajaRoot, Op.readFile FsPath.gamedbFile,
         Op.writeFile FsPath.gamedbFile,
         Op.removeDirAll (FsPath.saveDir s.directory)], false⟩) := by
  obtain ⟨gf, lv, bk, st⟩ := w
  obtain rfl : gf = DbFile.doc db := hfile
  refine ⟨?_, ?_, ?_⟩
  · simp [delete_save, update_gamedb, delete_step, dir_to_delete, ht]
  · intro removeOk p
    simp [delete_save, update_gamedb, delete_step, dir_to_delete, ht]
  · simp [delete_save, update_gamedb, delete_step, dir_to_delete, ht]

/-- C5 witness: deleting a concrete trashed save persists before removing,
and a failed persist attempts no physical removal. -/
theorem delete_persist_before_remove_witness :
    (delete_save "b" true true sampleWorld).ok = true ∧
    Op.removeDirAll (FsPath.saveDir "id2") ∉ (delete_save "b" false true sampleWorld).trace :=
  ⟨congrArg Run.ok
    ((delete_persist_before_remove "b" sampleWorld sampleDB sampleSaveB rfl (by decide)).1),
   (delete_persist_before_remove "b" sampleWorld sampleDB sampleSaveB rfl
      (by decide)).2.1 true (FsPath.saveDir "id2")⟩

/-- C7: for a fresh name, create/import copies the source into the fresh
storage directory strictly before committing the record: on the success
path the copy precedes the document write in the trace, and when the copy
fails (missing source or copy error) the run aborts with the document
untouched, no document write attempted, and only the fresh storage
directory left behind as an orphan. -/
theorem copy_before_commit (srcPath : FsPath) (src : Option DirContents)
    (n freshId ts : String) (copyOk writeOk : Bool) (w : World) (db : GameDB)
    (hfile : w.gamedbFile = DbFile.doc db)
    (hs : db.saves.any (fun x => x.name == n) = false)
    (ht : db.trash.any (fun x => x.name == n) = false) :
    (∀ contents, save_dir_as_save srcPath (some contents) n freshId ts true writeOk w =
      ⟨{ w with storage := w.storage ++ [(freshId, contents)],
                gamedbFile := if writeOk then
                    DbFile.doc { db with saves := db.saves ++
                      [{ name := n, directory := freshId, timestamp := ts }] }
                  else DbFile.corrupt },
        [Op.readFile FsPath.gamedbFile, Op.createDirAll (FsPath.saveDir freshId),
         Op.copyDir srcPath (FsPath.saveDir freshId), Op.createDirAll FsPath.nauttajaRoot,
         Op.readFile FsPath.gamedbFile, Op.writeFile FsPath.gamedbFile], writeOk⟩) ∧
    (src = none ∨ copyOk = false →
      save_dir_as_save srcPath src n freshId ts copyOk writeOk w =
        ⟨{ w with storage := w.storage ++ [(freshId, ([] : DirContents))] },
          [Op.readFile FsPath.gamedbFile, Op.createDirAll (FsPath.saveDir freshId),
           Op.copyDir srcPath (FsPath.saveDir freshId)], false⟩) :=
  ⟨fun contents => save_dir_as_save_success srcPath contents n freshId ts writeOk w db
      hfile hs ht,
   fun hfail => save_dir_as_save_copy_fail srcPath src n freshId ts copyOk writeOk w db
      hfile hs ht hfail⟩

/-- C7 witness: a concrete failed copy leaves the document untouched and a
concrete successful create copies before committing. -/
theorem copy_before_commit_witness :
    (save_dir_as_save (FsPath.noitaSaveDir "root") none "c" "id3" "2021-01-03 10:00:00"
        false true sampleWorld).world.gamedbFile = DbFile.doc sampleDB ∧
    (save_dir_as_save (FsPath.noitaSaveDir "root") (some [("world.dat", "v2")]) "c" "id3"
        "2021-01-03 10:00:00" true true sampleWorld).ok = true :=
  ⟨congrArg (fun r => r.world.gamedbFile)
    ((copy_before_commit (FsPath.noitaSaveDir "root") none "c" "id3" "2021-01-03 10:00:00"
        false true sampleWorld sampleDB rfl (by decide) (by decide)).2 (Or.inl rfl)),
   congrArg Run.ok
    ((copy_before_commit (FsPath.noitaSaveDir "root") (some [("world.dat", "v2")]) "c" "id3"
        "2021-01-03 10:00:00" true true sampleWorld sampleDB rfl (by decide)
        (by decide)).1 [("world.dat", "v2")])⟩

/-- C8: remove then restore returns the record to the active-save list
with its storage id and timestamp unchanged: the final world is the
original one where the untouched record has moved to the end of the active
list and the trash is as before. -/
theorem remove_restore_round_trip (n : String) (w : World) (db : GameDB) (s : Save)
    (hfile : w.gamedbFile = DbFile.doc db)
    (hs : db.saves.find? (fun x => x.name == n) = some s)
    (ht : db.trash.find? (fun x => x.name == n) = none) :
    (restore_save n true (remove_save n true w).world).world =
      { w with
          gamedbFile := DbFile.doc { db with saves := db.saves.eraseP (fun x => x.name == n) ++ [s] } } ∧
    s.name = n := by
  obtain ⟨gf, lv, bk, st⟩ := w
  obtain rfl : gf = DbFile.doc db := hfile
  have hp0 := List.find?_some hs
  have hp : (s.name == n) = true := hp0
  have hname : s.name = n := by simpa using hp
  have htall : ∀ x ∈ db.trash, ¬((fun y => y.name == n) x = true) := by
    simpa using List.find?_eq_none.mp ht
  refine ⟨?_, hname⟩
  have h1 : remove_save n true ⟨DbFile.doc db, lv, bk, st⟩ =
      ⟨⟨DbFile.doc { db with saves := db.saves.eraseP (fun x => x.name == n), trash := db.trash ++ [s] }, lv, bk, st⟩,
        [Op.print ("Removing save with name [" ++ n ++ "]"),
         Op.createDirAll FsPath.nauttajaRoot, Op.readFile FsPath.gamedbFile,
         Op.writeFile FsPath.gamedbFile,
         Op.print ("Save with name [" ++ n ++ "] removed")], true⟩ := by
    simp [remove_save, update_gamedb, remove_step, hs]
  rw [h1]
  have hfind : (db.trash ++ [s]).find? (fun x => x.name == n) = some s := by
    rw [List.find?_append, ht]
    simp [hp]
  have herase : (db.trash ++ [s]).eraseP (fun x => x.name == n) = db.trash := by
    rw [List.eraseP_append_right [s] htall]
    simp [hp]
  simp [restore_save, update_gamedb, restore_step, hfind, herase]

/-- C8 witness: a concrete remove-then-restore keeps the record intact. -/
theorem remove_restore_round_trip_witness :
    (restore_save "a" true (remove_save "a" true sampleWorld).world).world =
      { sampleWorld with
          gamedbFile := DbFile.doc { sampleDB with saves := sampleDB.saves.eraseP (fun x => x.name == "a") ++ [sampleSaveA] } } :=
  (remove_restore_round_trip "a" sampleWorld sampleDB sampleSaveA rfl (by decide)
    (by decide)).1

/-- C1 counterexample: a run of load_save that fails before the live-state
deletion step — the deletion is never attempted and the live state is
untouched — yet does not leave the system exactly as before: the
pre-existing backup slot has already been destroyed by steps 1 and 2. -/
theorem load_save_not_fully_reversible :
    Op.removeDirAll (FsPath.noitaSaveDir "root") ∉
      (load_save sampleConfig "a" ⟨true, true, false, true, true⟩ sampleWorld).trace ∧
    (load_save sampleConfig "a" ⟨true, true, false, true, true⟩ sampleWorld).ok = false ∧
    (load_save sampleConfig "a" ⟨true, true, false, true, true⟩ sampleWorld).world ≠
      sampleWorld := by
  refine ⟨by decide, by decide, by decide⟩

/-- C1 (amended): load_save runs its four steps in the strict order
delete-old-backup, create-and-fill-backup-slot, delete-live-state,
install-snapshot (the all-success run has exactly that trace), and the
backup copy always completes before the live-state directory is deleted:
whenever the trace contains the live-state deletion it also contains the
backup copy and the resulting backup slot equals the pre-load live state;
whenever the live-state deletion is absent (any earlier failure) the live
state is untouched.  (The previous backup slot contents, however, may
already have been deleted or replaced by such a failed run.) -/
theorem load_save_ordering (cfg : Config) (n : String) (o : LoadOracle) (w : World) :
    (Op.removeDirAll (FsPath.noitaSaveDir cfg.noita_root_dir) ∉ (load_save cfg n o w).trace →
      (load_save cfg n o w).world.live = w.live) ∧
    (Op.removeDirAll (FsPath.noitaSaveDir cfg.noita_root_dir) ∈ (load_save cfg n o w).trace →
      Op.copyDir (FsPath.noitaSaveDir cfg.noita_root_dir) FsPath.backupDir ∈
        (load_save cfg n o w).trace ∧
      (load_save cfg n o w).world.backup = w.live) ∧
    (∀ db s snapshot liveContents,
      w.gamedbFile = DbFile.doc db →
      db.saves.find? (fun x => x.name == n) = some s →
      w.storage.lookup s.directory = some snapshot →
      w.live = some liveContents →
      w.backup.isSome = true →
      load_save cfg n allOk w =
        ⟨{ w with backup := some liveContents, live := some snapshot },
          [Op.print ("Loading save with name [" ++ n ++ "]"),
           Op.readFile FsPath.gamedbFile,
           Op.removeDirAll FsPath.backupDir,
           Op.createDir FsPath.backupDir,
           Op.print "Creating emergency backup...",
           Op.copyDir (FsPath.noitaSaveDir cfg.noita_root_dir) FsPath.backupDir,
           Op.print ("Loading [" ++ n ++ "]..."),
           Op.removeDirAll (FsPath.noitaSaveDir cfg.noita_root_dir),
           Op.copyDir (FsPath.saveSnapshot s.directory) (FsPath.noitaRoot cfg.noita_root_dir),
           Op.print ("Save [" ++ n ++ "] successfully loaded!")], true⟩) := by
  obtain ⟨gf, lv, bk, st⟩ := w
  refine ⟨?_, ?_, ?_⟩
  · simp only [load_save, load_gamedb]
    repeat' split
    all_goals simp
  · simp only [load_save, load_gamedb]
    repeat' split
    all_goals simp
  · intro db s snapshot liveContents hdb hfind hlookup hlive hbs
    obtain rfl : gf = DbFile.doc db := hdb
    obtain rfl : lv = some liveContents := hlive
    cases bk with
    | none => simp at hbs
    | some b =>
        simp [load_save, load_gamedb, allOk, hfind, hlookup]

/-- C1 amended witness: a concrete all-success load produces the exact
four-step trace, installing the snapshot with the backup holding the
pre-load live state. -/
theorem load_save_ordering_witness :
    (load_save sampleConfig "a" allOk sampleWorld).ok = true ∧
    (load_save sampleConfig "a" allOk sampleWorld).world.backup =
      some [("world.dat", "v2")] ∧
    (load_save sampleConfig "a" allOk sampleWorld).world.live =
      some [("world.dat", "v1")] :=
  ⟨congrArg Run.ok
    ((load_save_ordering sampleConfig "a" allOk sampleWorld).2.2 sampleDB sampleSaveA
      [("world.dat", "v1")] [("world.dat", "v2")] rfl (by decide) (by decide) rfl rfl),
   congrArg (fun r => r.world.backup)
    ((load_save_ordering sampleConfig "a" allOk sampleWorld).2.2 sampleDB sampleSaveA
      [("world.dat", "v1")] [("world.dat", "v2")] rfl (by decide) (by decide) rfl rfl),
   congrArg (fun r => r.world.live)
    ((load_save_ordering sampleConfig "a" allOk sampleWorld).2.2 sampleDB sampleSaveA
      [("world.dat", "v1")] [("world.dat", "v2")] rfl (by decide) (by decide) rfl rfl)⟩

/-- C4: create of a fresh name captures the live state under the fresh
storage id and commits the record; the name then appears in the active
listing (sorted by timestamp descending), and a subsequent load of that
name succeeds and leaves the live-state directory byte-identical to the
contents captured at create time (the copy primitive being modelled as
faithful value transfer). -/
theorem create_then_load_round_trip (cfg : Config) (n freshId ts : String) (w : World)
    (db : GameDB) (liveContents : DirContents)
    (hfile : w.gamedbFile = DbFile.doc db)
    (hs : db.saves.any (fun x => x.name == n) = false)
    (ht : db.trash.any (fun x => x.name == n) = false)
    (hlive : w.live = some liveContents)
    (hfresh : w.storage.lookup freshId = none) :
    (save_game cfg n freshId ts true true w).world =
      { w with
          storage := w.storage ++ [(freshId, liveContents)],
          gamedbFile := DbFile.doc { db with saves := db.saves ++ [{ name := n, directory := freshId, timestamp := ts }] } } ∧
    n ∈ (sortedByTimestampDesc
        (db.saves ++ [{ name := n, directory := freshId, timestamp := ts }])).map Save.name ∧
    (load_save cfg n allOk (save_game cfg n freshId ts true true w).world).ok = true ∧
    (load_save cfg n allOk (save_game cfg n freshId ts true true w).world).world.live =
      some liveContents := by
  obtain ⟨gf, lv, bk, st⟩ := w
  obtain rfl : gf = DbFile.doc db := hfile
  obtain rfl : lv = some liveContents := hlive
  have hfresh2 : st.lookup freshId = none := hfresh
  have h1 : (save_game cfg n freshId ts true true
      ⟨DbFile.doc db, some liveContents, bk, st⟩).world =
      ⟨DbFile.doc { db with saves := db.saves ++ [{ name := n, directory := freshId, timestamp := ts }] },
        some liveContents, bk, st ++ [(freshId, liveContents)]⟩ := by
    rw [save_game_world cfg n freshId ts true true ⟨DbFile.doc db, some liveContents, bk, st⟩]
    rw [save_dir_as_save_success (FsPath.noitaSaveDir cfg.noita_root_dir) liveContents
      n freshId ts true ⟨DbFile.doc db, some liveContents, bk, st⟩ db rfl hs ht]
    simp
  have hfnone : db.saves.find? (fun x => x.name == n) = none :=
    List.find?_eq_none.mpr (by simpa using List.any_eq_false.mp hs)
  have hfind : (db.saves ++ [({ name := n, directory := freshId, timestamp := ts } : Save)]).find?
      (fun x => x.name == n) = some { name := n, directory := freshId, timestamp := ts } := by
    rw [List.find?_append, hfnone]
    simp
  have hlook : (st ++ [(freshId, liveContents)]).lookup freshId = some liveContents := by
    rw [List.lookup_append, hfresh2]
    simp [List.lookup]
  refine ⟨h1, ?_, ?_, ?_⟩
  · refine List.mem_map.mpr ⟨{ name := n, directory := freshId, timestamp := ts }, ?_, rfl⟩
    unfold sortedByTimestampDesc
    rw [List.mem_mergeSort]
    simp
  · rw [h1]
    cases bk <;> simp [load_save, load_gamedb, allOk, hfnone, hfind, hlook]
  · rw [h1]
    cases bk <;> simp [load_save, load_gamedb, allOk, hfnone, hfind, hlook]

/-- C4 witness: a concrete create-then-load restores the captured live
contents. -/
theorem create_then_load_round_trip_witness :
    (load_save sampleConfig "c" allOk
        (save_game sampleConfig "c" "id3" "2021-01-03 10:00:00" true true
          sampleWorld).world).world.live = some [("world.dat", "v2")] :=
  (create_then_load_round_trip sampleConfig "c" "id3" "2021-01-03 10:00:00" sampleWorld
    sampleDB [("world.dat", "v2")] rfl (by decide) (by decide) rfl (by decide)).2.2.2

end Nauttaja
